import Mathlib

/-!
Shallow embedding of `draftfast/optimize.py`: the single-shot solve wrapper
`run`, the multi-iteration loop `run_multi`, and the flag-reset helper
`reset_player_ban_lock`, together with the collaborator interfaces they use
(solver backend, exposure controller, roster container).  Python's in-place
mutation of the player pool, of `optimizer_settings.existing_rosters` and of
the global random generator is modelled by explicit state passing; the
opaque MIP solver is a function parameter returning `none` exactly when
`optimizer.solve()` returns false.
-/

namespace Draftfast

/-- A player record: identity plus the two iteration-scoped mutable flags
`ban` and `lock` that `reset_player_ban_lock` clears. -/
structure Player where
  name : String
  pos : String
  cost : Int
  proj : Int
  ban : Bool := false
  lock : Bool := false
deriving Repr, DecidableEq

/-- The roster container collaborator: an ordered list of selected players,
grown through `add_player`. -/
structure Roster where
  players : List Player := []
deriving Repr, DecidableEq

/-- `Roster.add_player` appends one selected player. -/
def Roster.add_player (r : Roster) (p : Player) : Roster :=
  ⟨r.players ++ [p]⟩

/-- Rule set: immutable per run (league tag, roster size, salary cap,
per-position quota table). -/
structure RuleSet where
  league : String
  roster_size : Nat
  salary_cap : Int
  position_counts : List (String × Nat) := []
deriving Repr, DecidableEq

/-- `LineupConstraints` from `lineup_contraints.py`: the name-based static
ban/lock lists that `run` builds from the player settings. -/
structure LineupConstraints where
  banned : List String := []
  locked : List String := []
deriving Repr, DecidableEq

/-- `constraints.ban(name)` records a forced-out name. -/
def LineupConstraints.ban (c : LineupConstraints) (n : String) : LineupConstraints :=
  { c with banned := c.banned ++ [n] }

/-- `constraints.lock(name)` records a forced-in name. -/
def LineupConstraints.lock (c : LineupConstraints) (n : String) : LineupConstraints :=
  { c with locked := c.locked ++ [n] }

/-- `PlayerPoolSettings`: the caller-supplied static banned/locked name
lists read by `run`. -/
structure PlayerPoolSettings where
  banned : List String := []
  locked : List String := []
deriving Repr, DecidableEq

/-- `OptimizerSettings`: carries the accumulated-rosters list
`existing_rosters` that the exposure controller reads and that
`run_multi` extends in place. -/
structure OptimizerSettings where
  existing_rosters : List Roster := []
deriving Repr, DecidableEq

/-- One per-player exposure bound: the target appearance count `target`
against which the signed deviation `observed - target` is reported. -/
structure ExposureBound where
  name : String
  target : Int
deriving Repr, DecidableEq

/-- The exposure hint dictionary produced by `get_exposure_args`: names to
force out and names to force in for the next solve. -/
structure ExposureDct where
  banned : List String := []
  locked : List String := []
deriving Repr, DecidableEq

/-- Modelled from the spec: the upstream pool filter (`player_pool.filter_pool`,
not part of the core source) narrows the pool by static attributes
(position, team, salary) before the core sees it; the settings embedded
here carry no static filters, so the filter returns the ordered pool
unchanged. -/
def filter_pool (player_pool : List Player) (_player_settings : Option PlayerPoolSettings) :
    List Player :=
  player_pool

/-- Modelled from the spec: the formulation step (`Optimizer`, not part of the
core source) consumes the exposure controller's hints as per-player
forced-in/forced-out overlay flags on the pool players it was handed;
`optimize.py`'s `reset_player_ban_lock` exists to clear exactly these flags
between iterations. -/
def apply_exposure_flags (player_pool : List Player) (exposure_dct : Option ExposureDct) :
    List Player :=
  match exposure_dct with
  | none => player_pool
  | some d =>
      player_pool.map (fun p =>
        if d.banned.contains p.name then { p with ban := true }
        else if d.locked.contains p.name then { p with lock := true }
        else p)

/-- The model handed to the external solver: the (filtered, flag-carrying)
player list in order, the rule set, the settings, the static name
constraints and the exposure hints. -/
structure SolveCtx where
  players : List Player
  rule_set : RuleSet
  settings : Option OptimizerSettings
  constraints : LineupConstraints
  exposure_dct : Option ExposureDct
deriving Repr, DecidableEq

/-- The opaque solver backend: `none` models `optimizer.solve()` returning
false (infeasible); `some vals` models success with `vals i = true` meaning
the `i`-th decision variable's solution value equals 1. -/
def Solver : Type :=
  SolveCtx → Option (List Bool)

/-- The `LineupConstraints` object `run` builds: bans from
`player_settings.banned`, then locks from `player_settings.locked`
(each guarded by Python truthiness of the settings and of the list). -/
def mkRunConstraints (player_settings : Option PlayerPoolSettings) : LineupConstraints :=
  let c : LineupConstraints := {}
  let c :=
    match player_settings with
    | some ps => if ps.banned.isEmpty then c else ps.banned.foldl LineupConstraints.ban c
    | none => c
  match player_settings with
  | some ps => if ps.locked.isEmpty then c else ps.locked.foldl LineupConstraints.lock c
  | none => c

/-- The player list a given `run` call formulates over: the pool after the
exposure-hint flags are applied, then statically filtered. -/
def runPlayers (player_pool : List Player) (player_settings : Option PlayerPoolSettings)
    (exposure_dct : Option ExposureDct) : List Player :=
  filter_pool (apply_exposure_flags player_pool exposure_dct) player_settings

/-- The complete model a given `run` call hands to the solver. -/
def mkRunCtx (rule_set : RuleSet) (player_pool : List Player)
    (optimizer_settings : Option OptimizerSettings)
    (player_settings : Option PlayerPoolSettings)
    (exposure_dct : Option ExposureDct) : SolveCtx :=
  ⟨runPlayers player_pool player_settings exposure_dct,
   rule_set, optimizer_settings, mkRunConstraints player_settings, exposure_dct⟩

/-- The extraction loop of `run`:
`for i, player in enumerate(players): if variables[i].solution_value() == 1:
roster.add_player(player)`. -/
def addSelectedPlayers (r : Roster) (players : List Player) (vals : List Bool) : Roster :=
  (players.zip vals).foldl (fun acc pv => if pv.2 then acc.add_player pv.1 else acc) r

/-- `run` from `optimize.py`: builds the constraints and the solver model,
calls the solver once, and on success extracts into a fresh roster exactly
the players whose variable solved to 1, in list order; on infeasibility it
returns `none` (no exception).  The second component is the post-call pool:
the Python code mutates pool players in place through the optimizer's
exposure-hint flags, which the pure embedding threads explicitly.
`roster_gen` models the optional fresh-roster factory (defaulting to
`RosterSelect().roster_gen(rule_set.league)`, an empty roster). -/
def run (solver : Solver) (rule_set : RuleSet) (player_pool : List Player)
    (optimizer_settings : Option OptimizerSettings)
    (player_settings : Option PlayerPoolSettings)
    (exposure_dct : Option ExposureDct)
    (roster_gen : Option Roster)
    (_verbose : Bool) : Option Roster × List Player :=
  let pool1 := apply_exposure_flags player_pool exposure_dct
  let players := filter_pool pool1 player_settings
  let ctx := mkRunCtx rule_set player_pool optimizer_settings player_settings exposure_dct
  match solver ctx with
  | some vals =>
      let roster := roster_gen.getD {}
      (some (addSelectedPlayers roster players vals), pool1)
  | none => (none, pool1)

/-- State of Python's global `random` generator, abstracted as a 31-bit
machine word. -/
abbrev RandomState : Type :=
  Nat

/-- Modelled from the spec: one step of the seedable pseudo-random source
(a linear congruential update), used by the exposure controller's
randomized tie-breaking. -/
def rand_next (s : RandomState) : RandomState :=
  (s * 1103515245 + 12345) % 2147483648

/-- `random.seed(seed)`: the generator state determined by a seed. -/
def random_seed (seed : Int) : RandomState :=
  seed.natAbs % 2147483648

/-- Python truthiness of the `exposure_random_seed` argument:
`None` and `0` are falsy. -/
def seed_truthy : Option Int → Bool
  | none => false
  | some s => s != 0

/-- Python truthiness of the `exposure_bounds` argument:
`None` and the empty list are falsy. -/
def bounds_truthy : Option (List ExposureBound) → Bool
  | none => false
  | some bs => !bs.isEmpty

/-- Whether a roster contains a player with the given name. -/
def roster_contains (r : Roster) (name : String) : Bool :=
  r.players.any (fun p => p.name == name)

/-- The number of rosters in which a named player appears (the observed
exposure count). -/
def exposure_count (name : String) (rosters : List Roster) : Int :=
  ((rosters.filter (fun r => roster_contains r name)).length : Int)

/-- Modelled from the spec: one bound's worth of the exposure controller's
hint derivation — a forced-out hint for a player already at or over their
target, a forced-in hint for a player still under it; when `use_random` is
set, the forced-out decision is tie-broken through the seeded pseudo-random
source, whose state is threaded explicitly. -/
def exposure_hint_step (existing_rosters : List Roster) (use_random : Bool)
    (acc : ExposureDct × RandomState) (b : ExposureBound) : ExposureDct × RandomState :=
  if exposure_count b.name existing_rosters ≥ b.target then
    if use_random then
      let st := rand_next acc.2
      if st % 2 == 0 then ({ acc.1 with banned := acc.1.banned ++ [b.name] }, st)
      else (acc.1, st)
    else ({ acc.1 with banned := acc.1.banned ++ [b.name] }, acc.2)
  else ({ acc.1 with locked := acc.1.locked ++ [b.name] }, acc.2)

/-- Modelled from the spec: the exposure controller
(`exposure.get_exposure_args`, not part of the core source) folds
`exposure_hint_step` over the bounds, starting from an empty hint
dictionary and the current generator state.  The trailing `random_seed`
argument is forwarded from the call site but the randomness itself comes
from the (already seeded) global generator. -/
def get_exposure_args (existing_rosters : List Roster) (exposure_bounds : List ExposureBound)
    (_n : Nat) (use_random : Bool) (_random_seed : Option Int) (rng : RandomState) :
    ExposureDct × RandomState :=
  exposure_bounds.foldl (exposure_hint_step existing_rosters use_random) ({}, rng)

/-- Modelled from the spec: `exposure.check_exposure(rosters, bounds)` (not
part of the core source) reports, per bound, the signed difference between
the observed appearance count and the target (`c - b`; negative = under,
positive = over). -/
def check_exposure (rosters : List Roster) (exposure_bounds : Option (List ExposureBound)) :
    List (String × Int) :=
  match exposure_bounds with
  | none => []
  | some bs => bs.map (fun b => (b.name, exposure_count b.name rosters - b.target))

/-- `reset_player_ban_lock` from `optimize.py`: sets `p.ban = False` and
`p.lock = False` for every pool player. -/
def reset_player_ban_lock (player_pool : List Player) : List Player :=
  player_pool.map (fun p => { p with ban := false, lock := false })

/-- The per-run inputs of `run_multi` that the loop body reads but never
writes. -/
structure MultiEnv where
  solver : Solver
  iterations : Nat
  rule_set : RuleSet
  player_settings : Option PlayerPoolSettings
  verbose : Bool
  exposure_bounds : Option (List ExposureBound)
  exposure_random_seed : Option Int

/-- The mutable state one loop iteration of `run_multi` reads and writes:
the player pool (flag mutation), the optimizer settings (whose
`existing_rosters` list is extended in place), the accumulated `rosters`
list, the global random generator, and a count of solver invocations. -/
structure LoopState where
  pool : List Player
  settings : OptimizerSettings
  rosters : List Roster
  rng : RandomState
  nSolves : Nat

/-- The exposure hints computed at the top of one loop iteration
(`exposure_dct = None` unless `exposure_bounds` is truthy), with the
generator state threaded through. -/
def multiStepDct (env : MultiEnv) (st : LoopState) : Option ExposureDct × RandomState :=
  if bounds_truthy env.exposure_bounds then
    let dr := get_exposure_args st.settings.existing_rosters
      (env.exposure_bounds.getD []) env.iterations
      (seed_truthy env.exposure_random_seed) env.exposure_random_seed st.rng
    (some dr.1, dr.2)
  else (none, st.rng)

/-- One iteration of the `run_multi` loop body: compute the exposure hints,
call `run` once, and on success append the roster to
`optimizer_settings.existing_rosters` and to the accumulated list and clear
the pool's ban/lock flags; on failure change nothing further (the caller
breaks out of the loop).  Returns the solve outcome together with the
post-iteration state. -/
def multiStep (env : MultiEnv) (st : LoopState) : Option Roster × LoopState :=
  let dctRng := multiStepDct env st
  let outcome := run env.solver env.rule_set st.pool (some st.settings)
    env.player_settings dctRng.1 none env.verbose
  match outcome.1 with
  | some roster =>
      (some roster,
       { pool := reset_player_ban_lock outcome.2,
         settings := { st.settings with
           existing_rosters := st.settings.existing_rosters ++ [roster] },
         rosters := st.rosters ++ [roster],
         rng := dctRng.2,
         nSolves := st.nSolves + 1 })
  | none =>
      (none,
       { st with pool := outcome.2, rng := dctRng.2, nSolves := st.nSolves + 1 })

/-- The `for _ in range(0, iterations)` loop of `run_multi`: run iterations
until the count is exhausted or a solve fails (`break`). -/
def multiLoop (env : MultiEnv) : Nat → LoopState → LoopState
  | 0, st => st
  | Nat.succ n, st =>
      match multiStep env st with
      | (some _, st') => multiLoop env n st'
      | (none, st') => st'

/-- Everything observable when `run_multi` returns: the returned pair
(`rosters`, `exposure_diffs`) plus the final values of the caller-visible
state the Python code mutates in place. -/
structure MultiResult where
  rosters : List Roster
  exposure_diffs : List (String × Int)
  final_pool : List Player
  final_settings : OptimizerSettings
  final_rng : RandomState
  nSolves : Nat
deriving Repr

/-- `run_multi` from `optimize.py`: seed the global generator when the seed
argument is truthy, run up to `iterations` loop iterations halting at the
first failed solve, then compute the exposure deviations only when at least
one roster was accumulated and `verbose` is set (otherwise the returned
deviation map is the initial empty dict).  `rng0` is the ambient state of
the global random generator at call time. -/
def run_multi (solver : Solver) (iterations : Nat) (rule_set : RuleSet)
    (player_pool : List Player) (player_settings : Option PlayerPoolSettings)
    (optimizer_settings : OptimizerSettings) (verbose : Bool)
    (exposure_bounds : Option (List ExposureBound))
    (exposure_random_seed : Option Int) (rng0 : RandomState) : MultiResult :=
  let rng1 := if seed_truthy exposure_random_seed
    then random_seed (exposure_random_seed.getD 0) else rng0
  let env : MultiEnv :=
    ⟨solver, iterations, rule_set, player_settings, verbose,
     exposure_bounds, exposure_random_seed⟩
  let stf := multiLoop env iterations
    ⟨player_pool, optimizer_settings, [], rng1, 0⟩
  let exposure_diffs :=
    if !stf.rosters.isEmpty && verbose
    then check_exposure stf.rosters exposure_bounds else []
  ⟨stf.rosters, exposure_diffs, stf.pool, stf.settings, stf.rng, stf.nSolves⟩

/-- The players selected by a solution vector: those paired with `true`, in
list order (specification-side counterpart of the extraction loop). -/
def selectedPlayers (players : List Player) (vals : List Bool) : List Player :=
  (players.zip vals).filterMap (fun pv => if pv.2 then some pv.1 else none)

/-- A player is forced out of a given formulation when its overlay `ban`
flag is set or its name is on the static banned list. -/
def forcedOut (ctx : SolveCtx) (p : Player) : Bool :=
  p.ban || ctx.constraints.banned.contains p.name

/-- A player is forced into a given formulation when its overlay `lock`
flag is set or its name is on the static locked list. -/
def forcedIn (ctx : SolveCtx) (p : Player) : Bool :=
  p.lock || ctx.constraints.locked.contains p.name

/-- Total salary of the selected players. -/
def selectedCost (players : List Player) (vals : List Bool) : Int :=
  (selectedPlayers players vals).foldl (fun s p => s + p.cost) 0

/-- Total projected value of the selected players (the objective). -/
def selectedProj (players : List Player) (vals : List Bool) : Int :=
  (selectedPlayers players vals).foldl (fun s p => s + p.proj) 0

/-- Modelled from the spec: a 0/1 assignment is feasible for a formulation
when it has one value per player, no forced-out player is selected, every
forced-in player is selected, exactly `roster_size` players are selected,
the total salary is within the cap, and every per-position quota is met. -/
def feasibleB (ctx : SolveCtx) (vals : List Bool) : Bool :=
  vals.length == ctx.players.length &&
  (ctx.players.zip vals).all (fun pv => !(pv.2 && forcedOut ctx pv.1)) &&
  (ctx.players.zip vals).all (fun pv => pv.2 || !forcedIn ctx pv.1) &&
  (selectedPlayers ctx.players vals).length == ctx.rule_set.roster_size &&
  selectedCost ctx.players vals ≤ ctx.rule_set.salary_cap &&
  ctx.rule_set.position_counts.all (fun pc =>
    ((selectedPlayers ctx.players vals).filter (fun p => p.pos == pc.1)).length == pc.2)

/-- All 0/1 assignments over `n` decision variables. -/
def allVecs : Nat → List (List Bool)
  | 0 => [[]]
  | Nat.succ n => (allVecs n).map (List.cons true) ++ (allVecs n).map (List.cons false)

/-- Pick from a list of assignments one maximizing the objective
(the head on ties, first-found maximum kept). -/
def argmaxProj (players : List Player) : List (List Bool) → Option (List Bool)
  | [] => none
  | v :: vs =>
      some (vs.foldl (fun best w =>
        if selectedProj players w > selectedProj players best then w else best) v)

/-- Modelled from the spec: the external solver backend maximizes the total
projected value over all feasible 0/1 assignments, reporting `none` exactly
when no assignment is feasible. -/
def specSolver : Solver :=
  fun ctx => argmaxProj ctx.players ((allVecs ctx.players.length).filter (feasibleB ctx))

/-- The loop state after a successful iteration: roster appended to both
lists, pool flags cleared, generator advanced. -/
def succState (env : MultiEnv) (st : LoopState) (roster : Roster) : LoopState :=
  { pool := reset_player_ban_lock (apply_exposure_flags st.pool (multiStepDct env st).1),
    settings := { st.settings with
      existing_rosters := st.settings.existing_rosters ++ [roster] },
    rosters := st.rosters ++ [roster],
    rng := (multiStepDct env st).2,
    nSolves := st.nSolves + 1 }

/-- The loop state after a failed iteration: only the pool (exposure-hint
flags, never reset), the generator and the solve count change. -/
def failState (env : MultiEnv) (st : LoopState) : LoopState :=
  { st with pool := apply_exposure_flags st.pool (multiStepDct env st).1,
            rng := (multiStepDct env st).2,
            nSolves := st.nSolves + 1 }

/-- The `run` call one loop iteration makes. -/
def stepRun (env : MultiEnv) (st : LoopState) : Option Roster × List Player :=
  run env.solver env.rule_set st.pool (some st.settings) env.player_settings
    (multiStepDct env st).1 none env.verbose

/-- Modelled from the spec: a variant loop iteration whose Ready state
resets the constraint overlay for every pool player at the start of the
iteration, before the exposure controller computes that iteration's hints.
This follows the spec's words; the code's `run_multi` instead calls
`reset_player_ban_lock` only at the end of a successful iteration. -/
def multiStep_startReset (env : MultiEnv) (st : LoopState) : Option Roster × LoopState :=
  multiStep env { st with pool := reset_player_ban_lock st.pool }

/-- Modelled from the spec: the iteration loop built from
`multiStep_startReset`. -/
def multiLoop_startReset (env : MultiEnv) : Nat → LoopState → LoopState
  | 0, st => st
  | Nat.succ n, st =>
      match multiStep_startReset env st with
      | (some _, st') => multiLoop_startReset env n st'
      | (none, st') => st'

/-- Modelled from the spec: `run_multi` with the overlay reset moved to the
start of each iteration (differs from the code's `run_multi` only through
`multiLoop_startReset`). -/
def run_multi_startReset (solver : Solver) (iterations : Nat) (rule_set : RuleSet)
    (player_pool : List Player) (player_settings : Option PlayerPoolSettings)
    (optimizer_settings : OptimizerSettings) (verbose : Bool)
    (exposure_bounds : Option (List ExposureBound))
    (exposure_random_seed : Option Int) (rng0 : RandomState) : MultiResult :=
  let rng1 := if seed_truthy exposure_random_seed
    then random_seed (exposure_random_seed.getD 0) else rng0
  let env : MultiEnv :=
    ⟨solver, iterations, rule_set, player_settings, verbose,
     exposure_bounds, exposure_random_seed⟩
  let stf := multiLoop_startReset env iterations
    ⟨player_pool, optimizer_settings, [], rng1, 0⟩
  let exposure_diffs :=
    if !stf.rosters.isEmpty && verbose
    then check_exposure stf.rosters exposure_bounds else []
  ⟨stf.rosters, exposure_diffs, stf.pool, stf.settings, stf.rng, stf.nSolves⟩

/-! Concrete instances used for evaluation. -/

/-- A concrete player. -/
def pA : Player :=
  ⟨"a", "G", 10, 5, false, false⟩

/-- Another concrete player. -/
def pB : Player :=
  ⟨"b", "G", 20, 3, false, false⟩

/-- A concrete rule set: one-player rosters under a 100 cap. -/
def rsOne : RuleSet :=
  ⟨"NBA", 1, 100, []⟩

/-- A backend that reports every formulation feasible with all variables
set to 1. -/
def solverAll : Solver :=
  fun ctx => some (ctx.players.map (fun _ => true))

/-- A backend that reports every formulation infeasible. -/
def solverNone : Solver :=
  fun _ => none

/-- A backend that reports infeasibility exactly when some player carries a
`ban` overlay flag, and otherwise selects everyone. -/
def solverFlagAverse : Solver :=
  fun ctx =>
    if ctx.players.any (fun p => p.ban) then none
    else some (ctx.players.map (fun _ => true))

/-! Helper lemmas about the extraction loop, the constraint builder and the
single-shot `run`. -/

theorem Roster.eq_of_players {r s : Roster} (h : r.players = s.players) : r = s := by
  cases r
  cases s
  cases h
  rfl

theorem addSelectedPlayers_players (r : Roster) (players : List Player) (vals : List Bool) :
    (addSelectedPlayers r players vals).players = r.players ++ selectedPlayers players vals := by
  unfold addSelectedPlayers selectedPlayers
  generalize players.zip vals = l
  induction l generalizing r with
  | nil => simp
  | cons pv l ih =>
      cases hb : pv.2
      · simpa [hb] using ih r
      · have hstep := ih (r.add_player pv.1)
        simp only [Roster.add_player] at hstep
        simp [hb, Roster.add_player, hstep]

theorem mem_selectedPlayers_iff (players : List Player) (vals : List Bool) (p : Player) :
    p ∈ selectedPlayers players vals ↔ (p, true) ∈ players.zip vals := by
  unfold selectedPlayers
  rw [List.mem_filterMap]
  constructor
  · rintro ⟨⟨a, b⟩, hmem, hf⟩
    cases b
    · simp at hf
    · simp only [if_pos] at hf
      simp at hf
      subst hf
      exact hmem
  · intro h
    exact ⟨(p, true), h, by simp⟩

theorem selectedPlayers_nil (vals : List Bool) : selectedPlayers [] vals = [] := by
  simp [selectedPlayers]

theorem selectedPlayers_cons (p : Player) (ps : List Player) (b : Bool) (bs : List Bool) :
    selectedPlayers (p :: ps) (b :: bs)
      = if b then p :: selectedPlayers ps bs else selectedPlayers ps bs := by
  cases b <;> simp [selectedPlayers]

theorem selectedPlayers_sublist (players : List Player) (vals : List Bool) :
    (selectedPlayers players vals).Sublist players := by
  induction players generalizing vals with
  | nil => simp [selectedPlayers]
  | cons p ps ih =>
      cases vals with
      | nil => simp [selectedPlayers]
      | cons b bs =>
          rw [selectedPlayers_cons]
          cases b
          · simpa using (ih bs).cons p
          · simpa using (ih bs).cons₂ p

theorem mem_zip_of_mem_left {players : List Player} {vals : List Bool} {q : Player}
    (hq : q ∈ players) (hlen : vals.length = players.length) :
    ∃ b, (q, b) ∈ players.zip vals := by
  induction players generalizing vals with
  | nil => cases hq
  | cons p ps ih =>
      cases vals with
      | nil => cases hlen
      | cons b bs =>
          rcases List.mem_cons.mp hq with h | h
          · exact ⟨b, by simp [h]⟩
          · obtain ⟨b', hb'⟩ := ih h (by simpa using hlen)
            exact ⟨b', by simp [hb']⟩

theorem foldl_ban_banned (l : List String) (c : LineupConstraints) :
    (l.foldl LineupConstraints.ban c).banned = c.banned ++ l := by
  induction l generalizing c with
  | nil => simp
  | cons n l ih => simp [ih, LineupConstraints.ban]

theorem foldl_ban_locked (l : List String) (c : LineupConstraints) :
    (l.foldl LineupConstraints.ban c).locked = c.locked := by
  induction l generalizing c with
  | nil => rfl
  | cons n l ih => simp [ih, LineupConstraints.ban]

theorem foldl_lock_banned (l : List String) (c : LineupConstraints) :
    (l.foldl LineupConstraints.lock c).banned = c.banned := by
  induction l generalizing c with
  | nil => rfl
  | cons n l ih => simp [ih, LineupConstraints.lock]

theorem foldl_lock_locked (l : List String) (c : LineupConstraints) :
    (l.foldl LineupConstraints.lock c).locked = c.locked ++ l := by
  induction l generalizing c with
  | nil => simp
  | cons n l ih => simp [ih, LineupConstraints.lock]

theorem mkRunConstraints_banned (ps : PlayerPoolSettings) :
    (mkRunConstraints (some ps)).banned = ps.banned := by
  unfold mkRunConstraints
  by_cases hb : ps.banned.isEmpty
  · have hnil : ps.banned = [] := List.isEmpty_iff.mp hb
    by_cases hl : ps.locked.isEmpty <;> simp [hb, hl, hnil, foldl_lock_banned]
  · by_cases hl : ps.locked.isEmpty <;>
      simp [hb, hl, foldl_lock_banned, foldl_ban_banned]

theorem mkRunConstraints_locked (ps : PlayerPoolSettings) :
    (mkRunConstraints (some ps)).locked = ps.locked := by
  unfold mkRunConstraints
  by_cases hl : ps.locked.isEmpty
  · have hnil : ps.locked = [] := List.isEmpty_iff.mp hl
    by_cases hb : ps.banned.isEmpty <;>
      simp [hb, hl, hnil, foldl_lock_locked, foldl_ban_locked]
  · by_cases hb : ps.banned.isEmpty <;>
      simp [hb, hl, foldl_lock_locked, foldl_ban_locked]

theorem run_snd (solver : Solver) (rs : RuleSet) (pool : List Player)
    (os : Option OptimizerSettings) (ps : Option PlayerPoolSettings)
    (dct : Option ExposureDct) (rg : Option Roster) (v : Bool) :
    (run solver rs pool os ps dct rg v).2 = apply_exposure_flags pool dct := by
  simp only [run]
  cases solver (mkRunCtx rs pool os ps dct) <;> rfl

theorem run_fst_none (solver : Solver) (rs : RuleSet) (pool : List Player)
    (os : Option OptimizerSettings) (ps : Option PlayerPoolSettings)
    (dct : Option ExposureDct) (rg : Option Roster) (v : Bool)
    (h : solver (mkRunCtx rs pool os ps dct) = none) :
    (run solver rs pool os ps dct rg v).1 = none := by
  simp only [run]
  rw [h]

theorem run_fst_some (solver : Solver) (rs : RuleSet) (pool : List Player)
    (os : Option OptimizerSettings) (ps : Option PlayerPoolSettings)
    (dct : Option ExposureDct) (v : Bool) (vals : List Bool)
    (h : solver (mkRunCtx rs pool os ps dct) = some vals) :
    (run solver rs pool os ps dct none v).1
      = some ⟨selectedPlayers (runPlayers pool ps dct) vals⟩ := by
  simp only [run]
  rw [h]
  refine congrArg some (Roster.eq_of_players ?_)
  rw [addSelectedPlayers_players]
  rfl

/-! Helper lemmas about the spec-modelled solver. -/

theorem foldl_pickMax_mem (players : List Player) (vs : List (List Bool)) :
    ∀ v : List Bool,
      vs.foldl (fun best w =>
        if selectedProj players w > selectedProj players best then w else best) v ∈ v :: vs := by
  induction vs with
  | nil => intro v; simp
  | cons w ws ih =>
      intro v
      simp only [List.foldl_cons]
      by_cases hc : selectedProj players w > selectedProj players v
      · rw [if_pos hc]
        exact List.mem_cons.mpr (Or.inr (ih w))
      · rw [if_neg hc]
        rcases List.mem_cons.mp (ih v) with h1 | h1
        · rw [h1]
          exact List.mem_cons_self _ _
        · exact List.mem_cons.mpr (Or.inr (List.mem_cons.mpr (Or.inr h1)))

theorem argmaxProj_mem (players : List Player) (l : List (List Bool)) (v : List Bool)
    (h : argmaxProj players l = some v) : v ∈ l := by
  cases l with
  | nil => cases h
  | cons x xs =>
      simp only [argmaxProj, Option.some.injEq] at h
      rw [← h]
      exact foldl_pickMax_mem players xs x

theorem argmaxProj_isSome (players : List Player) (l : List (List Bool)) (h : l ≠ []) :
    ∃ v, argmaxProj players l = some v := by
  cases l with
  | nil => exact absurd rfl h
  | cons x xs => exact ⟨_, rfl⟩

theorem specSolver_some_feasible (ctx : SolveCtx) (v : List Bool)
    (h : specSolver ctx = some v) : feasibleB ctx v = true := by
  have hv := argmaxProj_mem ctx.players _ v h
  exact (List.mem_filter.mp hv).2

theorem specSolver_isSome (ctx : SolveCtx)
    (h : (allVecs ctx.players.length).filter (feasibleB ctx) ≠ []) :
    ∃ v, specSolver ctx = some v :=
  argmaxProj_isSome ctx.players _ h

/-! Characterization of one `run_multi` loop iteration. -/

theorem multiStep_eq (env : MultiEnv) (st : LoopState) :
    multiStep env st =
      match (stepRun env st).1 with
      | some roster => (some roster, succState env st roster)
      | none => (none, failState env st) := by
  simp only [multiStep, stepRun]
  cases h : (run env.solver env.rule_set st.pool (some st.settings) env.player_settings
      (multiStepDct env st).1 none env.verbose).1 with
  | some roster =>
      simp only []
      have h2 := run_snd env.solver env.rule_set st.pool (some st.settings)
        env.player_settings (multiStepDct env st).1 none env.verbose
      rw [h2]
      rfl
  | none =>
      simp only []
      have h2 := run_snd env.solver env.rule_set st.pool (some st.settings)
        env.player_settings (multiStepDct env st).1 none env.verbose
      rw [h2]
      rfl

theorem multiLoop_succ_eq (env : MultiEnv) (n : Nat) (st : LoopState) :
    multiLoop env (n + 1) st =
      match (stepRun env st).1 with
      | some roster => multiLoop env n (succState env st roster)
      | none => failState env st := by
  show (match multiStep env st with
        | (some _, st') => multiLoop env n st'
        | (none, st') => st') = _
  rw [multiStep_eq]
  cases (stepRun env st).1 <;> rfl

/-! Loop invariants. -/

theorem multiLoop_count (env : MultiEnv) :
    ∀ (N : Nat) (st : LoopState),
      ∃ k, k ≤ N ∧ (multiLoop env N st).rosters.length = st.rosters.length + k ∧
        ((k = N ∧ (multiLoop env N st).nSolves = st.nSolves + N) ∨
         (k < N ∧ (multiLoop env N st).nSolves = st.nSolves + (k + 1))) := by
  intro N
  induction N with
  | zero =>
      intro st
      exact ⟨0, Nat.le_refl 0, by simp [multiLoop], Or.inl ⟨rfl, by simp [multiLoop]⟩⟩
  | succ n ih =>
      intro st
      rw [multiLoop_succ_eq]
      cases hrun : (stepRun env st).1 with
      | none =>
          refine ⟨0, Nat.zero_le _, by simp [failState], ?_⟩
          exact Or.inr ⟨Nat.succ_pos n, by simp [failState]⟩
      | some r =>
          obtain ⟨k, hk, hlen, hcase⟩ := ih (succState env st r)
          refine ⟨k + 1, Nat.succ_le_succ hk, ?_, ?_⟩
          · rw [hlen]
            simp [succState]
            omega
          · rcases hcase with ⟨hkn, hn⟩ | ⟨hkn, hn⟩
            · refine Or.inl ⟨by omega, ?_⟩
              rw [hn]
              simp [succState]
              omega
            · refine Or.inr ⟨by omega, ?_⟩
              rw [hn]
              simp [succState]
              omega

theorem multiLoop_existing (env : MultiEnv) :
    ∀ (N : Nat) (st : LoopState) (E : List Roster),
      st.settings.existing_rosters = E ++ st.rosters →
      (multiLoop env N st).settings.existing_rosters
        = E ++ (multiLoop env N st).rosters := by
  intro N
  induction N with
  | zero =>
      intro st E h
      simpa [multiLoop] using h
  | succ n ih =>
      intro st E h
      rw [multiLoop_succ_eq]
      cases hrun : (stepRun env st).1 with
      | none => simpa [failState] using h
      | some r =>
          refine ih (succState env st r) E ?_
          simp [succState, h]

theorem reset_player_ban_lock_flags (pool : List Player) :
    ∀ p ∈ reset_player_ban_lock pool, p.ban = false ∧ p.lock = false := by
  intro p hp
  simp only [reset_player_ban_lock, List.mem_map] at hp
  obtain ⟨q, _, rfl⟩ := hp
  exact ⟨rfl, rfl⟩

/-! Lemmas showing that with randomized selection disabled the exposure
controller neither consumes nor depends on the generator state, and never
reads the forwarded seed argument. -/

theorem exposure_hint_step_no_random (er : List Roster) (d : ExposureDct)
    (r : RandomState) (b : ExposureBound) :
    exposure_hint_step er false (d, r) b
      = ((exposure_hint_step er false (d, 0) b).1, r) := by
  simp only [exposure_hint_step]
  by_cases hc : exposure_count b.name er ≥ b.target <;> simp [hc]

theorem gea_foldl_no_random (er : List Roster) :
    ∀ (bs : List ExposureBound) (d : ExposureDct) (r1 r2 : RandomState),
      (bs.foldl (exposure_hint_step er false) (d, r1)).1
        = (bs.foldl (exposure_hint_step er false) (d, r2)).1 ∧
      (bs.foldl (exposure_hint_step er false) (d, r1)).2 = r1 := by
  intro bs
  induction bs with
  | nil => intro d r1 r2; exact ⟨rfl, rfl⟩
  | cons b bs ih =>
      intro d r1 r2
      rw [List.foldl_cons, List.foldl_cons,
          exposure_hint_step_no_random er d r1 b,
          exposure_hint_step_no_random er d r2 b]
      exact ih (exposure_hint_step er false (d, 0) b).1 r1 r2

theorem get_exposure_args_fst_no_random (er : List Roster) (bs : List ExposureBound)
    (n : Nat) (seed : Option Int) (r1 r2 : RandomState) :
    (get_exposure_args er bs n false seed r1).1
      = (get_exposure_args er bs n false seed r2).1 :=
  (gea_foldl_no_random er bs {} r1 r2).1

theorem get_exposure_args_snd_no_random (er : List Roster) (bs : List ExposureBound)
    (n : Nat) (seed : Option Int) (r : RandomState) :
    (get_exposure_args er bs n false seed r).2 = r :=
  (gea_foldl_no_random er bs {} r r).2

theorem get_exposure_args_seed_arg_unused (er : List Roster) (bs : List ExposureBound)
    (n : Nat) (u : Bool) (s1 s2 : Option Int) (r : RandomState) :
    get_exposure_args er bs n u s1 r = get_exposure_args er bs n u s2 r :=
  rfl

/-! When the seed argument is falsy, randomized selection is disabled and
the loop's behaviour is independent of the ambient generator state. -/

theorem multiStepDct_withRng (env : MultiEnv)
    (h : seed_truthy env.exposure_random_seed = false) (st : LoopState) (r : RandomState) :
    multiStepDct env { st with rng := r } = ((multiStepDct env st).1, r) := by
  obtain ⟨pool, set, ros, rng0, ns⟩ := st
  unfold multiStepDct
  by_cases hb : bounds_truthy env.exposure_bounds
  · simp only [hb, if_true, h]
    rw [get_exposure_args_snd_no_random,
        get_exposure_args_fst_no_random set.existing_rosters
          (env.exposure_bounds.getD []) env.iterations env.exposure_random_seed r rng0]
  · simp [hb]

theorem stepRun_withRng (env : MultiEnv)
    (h : seed_truthy env.exposure_random_seed = false) (st : LoopState) (r : RandomState) :
    stepRun env { st with rng := r } = stepRun env st := by
  unfold stepRun
  rw [multiStepDct_withRng env h st r]

theorem succState_withRng (env : MultiEnv)
    (h : seed_truthy env.exposure_random_seed = false) (st : LoopState) (r : RandomState)
    (ro : Roster) :
    succState env { st with rng := r } ro = { succState env st ro with rng := r } := by
  simp [succState, multiStepDct_withRng env h st r]

theorem failState_withRng (env : MultiEnv)
    (h : seed_truthy env.exposure_random_seed = false) (st : LoopState) (r : RandomState) :
    failState env { st with rng := r } = { failState env st with rng := r } := by
  simp [failState, multiStepDct_withRng env h st r]

theorem multiLoop_withRng (env : MultiEnv)
    (h : seed_truthy env.exposure_random_seed = false) :
    ∀ (N : Nat) (st : LoopState) (r : RandomState),
      multiLoop env N { st with rng := r } = { multiLoop env N st with rng := r } := by
  intro N
  induction N with
  | zero => intro st r; simp [multiLoop]
  | succ n ih =>
      intro st r
      rw [multiLoop_succ_eq, multiLoop_succ_eq, stepRun_withRng env h st r]
      cases hrun : (stepRun env st).1 with
      | some ro =>
          simp only []
          rw [succState_withRng env h st r ro]
          exact ih (succState env st ro) r
      | none =>
          simp only []
          exact failState_withRng env h st r

/-! The forwarded seed argument only matters through its truthiness. -/

theorem multiStepDct_seed_congr (env : MultiEnv) (s : Option Int)
    (h : seed_truthy s = seed_truthy env.exposure_random_seed) (st : LoopState) :
    multiStepDct { env with exposure_random_seed := s } st = multiStepDct env st := by
  obtain ⟨solver, its, rs, ps, v, bounds, seed⟩ := env
  unfold multiStepDct
  by_cases hb : bounds_truthy bounds
  · simp only at h
    simp only [hb, if_true, h]
    rw [get_exposure_args_seed_arg_unused st.settings.existing_rosters
        (bounds.getD []) its (seed_truthy seed) s seed]
  · simp [hb]

theorem stepRun_seed_congr (env : MultiEnv) (s : Option Int)
    (h : seed_truthy s = seed_truthy env.exposure_random_seed) (st : LoopState) :
    stepRun { env with exposure_random_seed := s } st = stepRun env st := by
  unfold stepRun
  rw [multiStepDct_seed_congr env s h st]

theorem succState_seed_congr (env : MultiEnv) (s : Option Int)
    (h : seed_truthy s = seed_truthy env.exposure_random_seed) (st : LoopState) (ro : Roster) :
    succState { env with exposure_random_seed := s } st ro = succState env st ro := by
  simp [succState, multiStepDct_seed_congr env s h st]

theorem failState_seed_congr (env : MultiEnv) (s : Option Int)
    (h : seed_truthy s = seed_truthy env.exposure_random_seed) (st : LoopState) :
    failState { env with exposure_random_seed := s } st = failState env st := by
  simp [failState, multiStepDct_seed_congr env s h st]

theorem multiLoop_seed_congr (env : MultiEnv) (s : Option Int)
    (h : seed_truthy s = seed_truthy env.exposure_random_seed) :
    ∀ (N : Nat) (st : LoopState),
      multiLoop { env with exposure_random_seed := s } N st = multiLoop env N st := by
  intro N
  induction N with
  | zero => intro st; rfl
  | succ n ih =>
      intro st
      rw [multiLoop_succ_eq, multiLoop_succ_eq, stepRun_seed_congr env s h st]
      cases hrun : (stepRun env st).1 with
      | some ro =>
          simp only []
          rw [succState_seed_congr env s h st ro]
          exact ih (succState env st ro)
      | none =>
          simp only []
          exact failState_seed_congr env s h st

theorem zip_get_mem (players : List Player) (vals : List Bool) :
    ∀ (i : Nat) (h1 : i < players.length) (h2 : i < vals.length),
      (players.get ⟨i, h1⟩, vals.get ⟨i, h2⟩) ∈ players.zip vals := by
  induction players generalizing vals with
  | nil => intro i h1 h2; cases h1
  | cons p ps ih =>
      intro i h1 h2
      cases vals with
      | nil => cases h2
      | cons b bs =>
          cases i with
          | zero => simp
          | succ j =>
              have hm := ih bs j (Nat.lt_of_succ_lt_succ h1) (Nat.lt_of_succ_lt_succ h2)
              simpa using Or.inr hm

theorem run_multi_diffs_eq (solver : Solver) (N : Nat) (rs : RuleSet) (pool : List Player)
    (ps : Option PlayerPoolSettings) (os : OptimizerSettings) (v : Bool)
    (bounds : Option (List ExposureBound)) (seed : Option Int) (rng0 : RandomState) :
    (run_multi solver N rs pool ps os v bounds seed rng0).exposure_diffs
      = if !(run_multi solver N rs pool ps os v bounds seed rng0).rosters.isEmpty && v
        then check_exposure (run_multi solver N rs pool ps os v bounds seed rng0).rosters bounds
        else [] := by
  simp only [run_multi]

/-! Claim theorems. -/

/-- C7: on every input where the solver reports infeasibility, `run`
returns the null roster signal `none` (it is Option-valued, so there is no
exception to raise), and this outcome coincides exactly with the solve
flag being false. -/
theorem c7_infeasible_yields_none (solver : Solver) (rs : RuleSet) (pool : List Player)
    (os : Option OptimizerSettings) (ps : Option PlayerPoolSettings)
    (dct : Option ExposureDct) (rg : Option Roster) (v : Bool) :
    (run solver rs pool os ps dct rg v).1 = none
      ↔ solver (mkRunCtx rs pool os ps dct) = none := by
  simp only [run]
  cases solver (mkRunCtx rs pool os ps dct) <;> simp

/-- C3: when a solve succeeds, the roster `run` returns contains exactly
the players whose decision variable solved to 1, inserted in the order of
the player list the variables were built over: the roster equals the
selected sublist, membership coincides with a `true` solution value, and
every index whose variable is 1 contributes its player. -/
theorem c3_roster_is_selected_players (solver : Solver) (rs : RuleSet) (pool : List Player)
    (os : Option OptimizerSettings) (ps : Option PlayerPoolSettings)
    (dct : Option ExposureDct) (v : Bool) (vals : List Bool)
    (hsolve : solver (mkRunCtx rs pool os ps dct) = some vals)
    (hlen : vals.length = (runPlayers pool ps dct).length) :
    ∃ r : Roster, (run solver rs pool os ps dct none v).1 = some r
      ∧ r.players = selectedPlayers (runPlayers pool ps dct) vals
      ∧ r.players.Sublist (runPlayers pool ps dct)
      ∧ (∀ p : Player, p ∈ r.players ↔ (p, true) ∈ (runPlayers pool ps dct).zip vals)
      ∧ (∀ i : Fin (runPlayers pool ps dct).length,
          vals.get (Fin.cast hlen.symm i) = true →
            (runPlayers pool ps dct).get i ∈ r.players) := by
  refine ⟨⟨selectedPlayers (runPlayers pool ps dct) vals⟩,
    run_fst_some solver rs pool os ps dct v vals hsolve, rfl,
    selectedPlayers_sublist _ _,
    fun p => mem_selectedPlayers_iff _ _ p, ?_⟩
  intro i hi
  have hm := zip_get_mem (runPlayers pool ps dct) vals i.val i.isLt
    (by rw [hlen]; exact i.isLt)
  rw [show vals.get ⟨i.val, by rw [hlen]; exact i.isLt⟩
      = vals.get (Fin.cast hlen.symm i) from rfl, hi] at hm
  exact (mem_selectedPlayers_iff _ _ _).mpr hm

/-- C3 witness: a concrete successful solve where both players' variables
are 1 and the returned roster is exactly their selected list. -/
theorem c3_roster_is_selected_players_witness :
    (run solverAll rsOne [pA, pB] none none none none false).1 = some ⟨[pA, pB]⟩ := by
  obtain ⟨r, h1, h2, _, _, _⟩ := c3_roster_is_selected_players solverAll rsOne [pA, pB]
    none none none false [true, true] (by rfl) (by rfl)
  rw [h1]
  exact congrArg some (Roster.eq_of_players (by rw [h2]; decide))

/-- C2: the multi-iteration loop is fail-fast — it returns at most the
requested number of rosters; when it returns fewer, the solver was invoked
exactly once more than the number of accepted rosters (the accepted
iterations plus the single failing one, none after it), and when it
returns the full count the solver was invoked exactly that many times. -/
theorem c2_halt_on_first_failed_solve (solver : Solver) (N : Nat) (rs : RuleSet)
    (pool : List Player) (ps : Option PlayerPoolSettings) (os : OptimizerSettings)
    (v : Bool) (bounds : Option (List ExposureBound)) (seed : Option Int)
    (rng0 : RandomState) :
    (run_multi solver N rs pool ps os v bounds seed rng0).rosters.length ≤ N
    ∧ ((run_multi solver N rs pool ps os v bounds seed rng0).rosters.length < N →
        (run_multi solver N rs pool ps os v bounds seed rng0).nSolves
          = (run_multi solver N rs pool ps os v bounds seed rng0).rosters.length + 1)
    ∧ ((run_multi solver N rs pool ps os v bounds seed rng0).rosters.length = N →
        (run_multi solver N rs pool ps os v bounds seed rng0).nSolves = N) := by
  simp only [run_multi]
  obtain ⟨k, hk, hlen, hcase⟩ := multiLoop_count
    ⟨solver, N, rs, ps, v, bounds, seed⟩ N
    ⟨pool, os, [], if seed_truthy seed then random_seed (seed.getD 0) else rng0, 0⟩
  simp only [List.length_nil, Nat.zero_add] at hlen hcase
  refine ⟨?_, ?_, ?_⟩
  · rw [hlen]; exact hk
  · intro hlt
    rw [hlen] at hlt ⊢
    rcases hcase with ⟨hkn, hn⟩ | ⟨hkn, hn⟩
    · omega
    · rw [hn]
  · intro heq
    rw [hlen] at heq
    rcases hcase with ⟨hkn, hn⟩ | ⟨hkn, hn⟩
    · rw [hn]
    · omega

/-- C2 witness: with an always-infeasible backend and three requested
iterations, the loop stops after a single solver call with no rosters. -/
theorem c2_halt_on_first_failed_solve_witness :
    (run_multi solverNone 3 rsOne [pA] none ⟨[]⟩ false none none 0).nSolves
      = (run_multi solverNone 3 rsOne [pA] none ⟨[]⟩ false none none 0).rosters.length + 1 :=
  (c2_halt_on_first_failed_solve solverNone 3 rsOne [pA] none ⟨[]⟩ false none none 0).2.1
    (by decide)

/-- C6 counterexample: `run_multi` does append to
`optimizer_settings.existing_rosters` — after one successful iteration
starting from an empty list, the list is no longer empty. -/
theorem c6_counterexample :
    (run_multi solverAll 1 rsOne [pA] none ⟨[]⟩ false none none
        0).final_settings.existing_rosters ≠ [] := by
  decide

/-- C6 (amended): `run_multi` extends `optimizer_settings.existing_rosters`
in place with every accepted roster, so on return it holds the entry
rosters followed by exactly the returned roster list. -/
theorem c6_existing_rosters_extended (solver : Solver) (N : Nat) (rs : RuleSet)
    (pool : List Player) (ps : Option PlayerPoolSettings) (os : OptimizerSettings)
    (v : Bool) (bounds : Option (List ExposureBound)) (seed : Option Int)
    (rng0 : RandomState) :
    (run_multi solver N rs pool ps os v bounds seed rng0).final_settings.existing_rosters
      = os.existing_rosters ++ (run_multi solver N rs pool ps os v bounds seed rng0).rosters := by
  simp only [run_multi]
  exact multiLoop_existing ⟨solver, N, rs, ps, v, bounds, seed⟩ N
    ⟨pool, os, [], if seed_truthy seed then random_seed (seed.getD 0) else rng0, 0⟩
    os.existing_rosters (by simp)

/-- C1 counterexample: with `verbose` false and nonzero deviations, the
returned deviation map is empty even though `check_exposure` on the
accumulated rosters is not — the deviation map is not computed regardless
of the verbose setting. -/
theorem c1_counterexample :
    (run_multi solverAll 1 rsOne [pA] none ⟨[]⟩ false (some [⟨"a", 5⟩]) none
        0).exposure_diffs = []
    ∧ check_exposure
        (run_multi solverAll 1 rsOne [pA] none ⟨[]⟩ false (some [⟨"a", 5⟩]) none 0).rosters
        (some [⟨"a", 5⟩]) ≠ [] := by
  exact ⟨by decide, by decide⟩

/-- C1 (amended): after completing all iterations or halting on a failed
solve, `run_multi` returns the accumulated rosters together with a
deviation map that is computed only when `verbose` is set and at least one
roster was accumulated; with `verbose` false the returned deviation map is
the initial empty one. -/
theorem c1_deviation_only_when_verbose (solver : Solver) (N : Nat) (rs : RuleSet)
    (pool : List Player) (ps : Option PlayerPoolSettings) (os : OptimizerSettings)
    (bounds : Option (List ExposureBound)) (seed : Option Int) (rng0 : RandomState) :
    (run_multi solver N rs pool ps os false bounds seed rng0).exposure_diffs = []
    ∧ ((run_multi solver N rs pool ps os true bounds seed rng0).rosters ≠ [] →
        (run_multi solver N rs pool ps os true bounds seed rng0).exposure_diffs
          = check_exposure
              (run_multi solver N rs pool ps os true bounds seed rng0).rosters bounds) := by
  constructor
  · rw [run_multi_diffs_eq]
    simp
  · intro h
    rw [run_multi_diffs_eq]
    have hne : (run_multi solver N rs pool ps os true bounds seed rng0).rosters.isEmpty
        = false :=
      Bool.eq_false_iff.mpr (fun hc => h (List.isEmpty_iff.mp hc))
    simp [hne]

/-- C1 witness: the amended statement at a concrete input — verbose-off
returns an empty map, verbose-on (with a roster accumulated) returns the
`check_exposure` map. -/
theorem c1_deviation_only_when_verbose_witness :
    (run_multi solverAll 1 rsOne [pA] none ⟨[]⟩ false (some [⟨"a", 5⟩]) none
        0).exposure_diffs = []
    ∧ (run_multi solverAll 1 rsOne [pA] none ⟨[]⟩ true (some [⟨"a", 5⟩]) none
        0).exposure_diffs
        = check_exposure
            (run_multi solverAll 1 rsOne [pA] none ⟨[]⟩ true (some [⟨"a", 5⟩]) none 0).rosters
            (some [⟨"a", 5⟩]) := by
  have h := c1_deviation_only_when_verbose solverAll 1 rsOne [pA] none ⟨[]⟩
    (some [⟨"a", 5⟩]) none 0
  exact ⟨h.1, h.2 (by decide)⟩

/-- C4 counterexample: ban/lock flags are not reset at the start of each
iteration — with a pre-flagged pool and a flag-sensitive backend, the
code's `run_multi` (reset after success) and the spec-worded
`run_multi_startReset` (reset at the start) return different roster
sequences on the same input. -/
theorem c4_counterexample :
    (run_multi solverFlagAverse 1 rsOne [{ pA with ban := true }] none ⟨[]⟩ false none none
        0).rosters
      ≠ (run_multi_startReset solverFlagAverse 1 rsOne [{ pA with ban := true }] none ⟨[]⟩
          false none none 0).rosters := by
  decide

/-- C4 (amended): `run_multi` resets every pool player's ban/lock flags at
the end of each successful iteration — after a successful loop iteration
the pool is exactly the reset of the flagged pool the solve saw, and every
player entering the next iteration carries cleared flags; consequently
flags set during iteration k never affect iteration k+1's formulation
unless re-applied by that iteration's exposure hints (flags already set on
entry, however, do reach the first iteration). -/
theorem c4_overlay_reset_after_success (env : MultiEnv) (st : LoopState) (r : Roster)
    (h : (multiStep env st).1 = some r) :
    ((multiStep env st).2).pool
      = reset_player_ban_lock (apply_exposure_flags st.pool (multiStepDct env st).1)
    ∧ ∀ p ∈ ((multiStep env st).2).pool, p.ban = false ∧ p.lock = false := by
  rw [multiStep_eq] at h ⊢
  cases hrun : (stepRun env st).1 with
  | none =>
      rw [hrun] at h
      simp at h
  | some ro =>
      rw [hrun] at h
      constructor
      · simp [succState]
      · simp only [succState]
        exact reset_player_ban_lock_flags _

/-- C4 witness: a concrete successful iteration starting from a flagged
pool ends with the pool's flags cleared. -/
theorem c4_overlay_reset_after_success_witness :
    ((multiStep ⟨solverAll, 1, rsOne, none, false, none, none⟩
        ⟨[{ pA with ban := true }], ⟨[]⟩, [], 0, 0⟩).2).pool = [pA] := by
  have h := c4_overlay_reset_after_success ⟨solverAll, 1, rsOne, none, false, none, none⟩
    ⟨[{ pA with ban := true }], ⟨[]⟩, [], 0, 0⟩ ⟨[{ pA with ban := true }]⟩ (by decide)
  rw [h.1]
  decide

/-- C5: two `run_multi` calls with the same non-null random seed and
identical inputs produce identical roster sequences, whatever ambient
generator states the two calls start from. -/
theorem c5_deterministic_under_seed (solver : Solver) (N : Nat) (rs : RuleSet)
    (pool : List Player) (ps : Option PlayerPoolSettings) (os : OptimizerSettings)
    (v : Bool) (bounds : Option (List ExposureBound)) (s : Int)
    (rng1 rng2 : RandomState) :
    (run_multi solver N rs pool ps os v bounds (some s) rng1).rosters
      = (run_multi solver N rs pool ps os v bounds (some s) rng2).rosters := by
  by_cases hs : s = 0
  · subst hs
    have hst : seed_truthy (some 0) = false := by decide
    simp only [run_multi, hst, Bool.false_eq_true, if_false]
    have h := multiLoop_withRng ⟨solver, N, rs, ps, v, bounds, some 0⟩ hst N
      ⟨pool, os, [], rng2, 0⟩ rng1
    rw [show (⟨pool, os, [], rng1, 0⟩ : LoopState)
        = { (⟨pool, os, [], rng2, 0⟩ : LoopState) with rng := rng1 } from rfl, h]
  · have hst : seed_truthy (some s) = true := by simp [seed_truthy, hs]
    simp [run_multi, hst]

/-- C9: a zero seed is falsy, so `run_multi` with `exposure_random_seed = 0`
behaves exactly as with no seed at all: the generator is never re-seeded,
the exposure hints are computed with randomized selection disabled, and
every observable output coincides. -/
theorem c9_zero_seed_same_as_none (solver : Solver) (N : Nat) (rs : RuleSet)
    (pool : List Player) (ps : Option PlayerPoolSettings) (os : OptimizerSettings)
    (v : Bool) (bounds : Option (List ExposureBound)) (rng0 : RandomState) :
    run_multi solver N rs pool ps os v bounds (some 0) rng0
      = run_multi solver N rs pool ps os v bounds none rng0 := by
  have h0 : seed_truthy (some 0) = false := by decide
  have hn : seed_truthy none = false := rfl
  simp only [run_multi, h0, hn, Bool.false_eq_true, if_false]
  rw [show (⟨solver, N, rs, ps, v, bounds, some 0⟩ : MultiEnv)
      = { (⟨solver, N, rs, ps, v, bounds, none⟩ : MultiEnv)
          with exposure_random_seed := some 0 } from rfl,
    multiLoop_seed_congr ⟨solver, N, rs, ps, v, bounds, none⟩ (some 0) rfl N
      ⟨pool, os, [], rng0, 0⟩]

/-- C10: when an iteration's solve fails, the loop exits before
`reset_player_ban_lock` — the post-iteration pool is exactly the flagged
pool the failed solve saw, and that state is what the loop returns;
the flags are cleared only by successful iterations. -/
theorem c10_flags_survive_failed_iteration (env : MultiEnv) (st : LoopState) (n : Nat) :
    ((multiStep env st).1 = none →
        ((multiStep env st).2).pool
          = apply_exposure_flags st.pool (multiStepDct env st).1
        ∧ multiLoop env (n + 1) st = (multiStep env st).2)
    ∧ (∀ r, (multiStep env st).1 = some r →
        ∀ p ∈ ((multiStep env st).2).pool, p.ban = false ∧ p.lock = false) := by
  constructor
  · intro h
    rw [multiStep_eq] at h
    rw [multiStep_eq, multiLoop_succ_eq]
    cases hrun : (stepRun env st).1 with
    | some ro =>
        rw [hrun] at h
        simp at h
    | none =>
        rw [hrun] at h
        exact ⟨by simp [failState], rfl⟩
  · intro r h
    rw [multiStep_eq] at h
    rw [multiStep_eq]
    cases hrun : (stepRun env st).1 with
    | none =>
        rw [hrun] at h
        simp at h
    | some ro =>
        simp only [succState]
        exact reset_player_ban_lock_flags _

/-- C10 witness: a failed iteration under an exposure ban-hint leaves the
hint's ban flag set on the pool `run_multi` returns. -/
theorem c10_flags_survive_failed_iteration_witness :
    (multiLoop ⟨solverNone, 1, rsOne, none, false, some [⟨"a", 0⟩], none⟩ 1
        ⟨[pA], ⟨[]⟩, [], 0, 0⟩).pool = [{ pA with ban := true }] := by
  have h := (c10_flags_survive_failed_iteration
      ⟨solverNone, 1, rsOne, none, false, some [⟨"a", 0⟩], none⟩
      ⟨[pA], ⟨[]⟩, [], 0, 0⟩ 0).1 (by decide)
  have h2 := h.2
  simp only [Nat.zero_add] at h2
  rw [h2, h.1]
  decide

/-- C8: against the spec-modelled optimizing backend, a name on the static
banned list yields a roster from which every player of that name is
absent whenever some feasible assignment exists, and a pool player whose
name is on the static locked list is present in the returned roster
whenever some feasible assignment exists (feasible assignments always
contain locked players). -/
theorem c8_ban_lock_semantics (rs : RuleSet) (pool : List Player)
    (ps : PlayerPoolSettings) (name : String) :
    ((name ∈ ps.banned →
        (allVecs (mkRunCtx rs pool none (some ps) none).players.length).filter
            (feasibleB (mkRunCtx rs pool none (some ps) none)) ≠ [] →
        ∃ r : Roster, (run specSolver rs pool none (some ps) none none false).1 = some r
          ∧ ∀ p ∈ r.players, p.name ≠ name))
    ∧ (∀ q : Player, q ∈ (mkRunCtx rs pool none (some ps) none).players →
        q.name = name → name ∈ ps.locked →
        (allVecs (mkRunCtx rs pool none (some ps) none).players.length).filter
            (feasibleB (mkRunCtx rs pool none (some ps) none)) ≠ [] →
        ∃ r : Roster, (run specSolver rs pool none (some ps) none none false).1 = some r
          ∧ q ∈ r.players) := by
  constructor
  · intro hname hfeas
    obtain ⟨v, hv⟩ := specSolver_isSome (mkRunCtx rs pool none (some ps) none) hfeas
    have hfeasv := specSolver_some_feasible (mkRunCtx rs pool none (some ps) none) v hv
    refine ⟨⟨selectedPlayers (runPlayers pool (some ps) none) v⟩,
      run_fst_some specSolver rs pool none (some ps) none false v hv, ?_⟩
    intro p hp hpname
    have hz := (mem_selectedPlayers_iff (runPlayers pool (some ps) none) v p).mp hp
    have hforced : forcedOut (mkRunCtx rs pool none (some ps) none) p = true := by
      simp [forcedOut, mkRunCtx, mkRunConstraints_banned]
      exact Or.inr (hpname ▸ hname)
    simp only [feasibleB, Bool.and_eq_true, List.all_eq_true] at hfeasv
    obtain ⟨⟨⟨⟨⟨hlen, hno⟩, hin⟩, hsize⟩, hcost⟩, hposc⟩ := hfeasv
    have hcontra := hno (p, true) hz
    rw [hforced] at hcontra
    simp at hcontra
  · intro q hq hqname hname hfeas
    obtain ⟨v, hv⟩ := specSolver_isSome (mkRunCtx rs pool none (some ps) none) hfeas
    have hfeasv := specSolver_some_feasible (mkRunCtx rs pool none (some ps) none) v hv
    simp only [feasibleB, Bool.and_eq_true, List.all_eq_true] at hfeasv
    obtain ⟨⟨⟨⟨⟨hlen, hno⟩, hin⟩, hsize⟩, hcost⟩, hposc⟩ := hfeasv
    have hlen' : v.length = (mkRunCtx rs pool none (some ps) none).players.length := by
      simpa using hlen
    obtain ⟨b, hb⟩ := mem_zip_of_mem_left hq hlen'
    have hforcedIn : forcedIn (mkRunCtx rs pool none (some ps) none) q = true := by
      simp [forcedIn, mkRunCtx, mkRunConstraints_locked]
      exact Or.inr (hqname ▸ hname)
    have hbv := hin (q, b) hb
    rw [hforcedIn] at hbv
    simp at hbv
    subst hbv
    refine ⟨⟨selectedPlayers (runPlayers pool (some ps) none) v⟩,
      run_fst_some specSolver rs pool none (some ps) none false v hv, ?_⟩
    exact (mem_selectedPlayers_iff (runPlayers pool (some ps) none) v q).mpr hb

/-- C8 witness: with player `a` banned and one-player rosters, the
spec-modelled backend picks the roster `[pB]`, which indeed avoids the
banned name. -/
theorem c8_ban_lock_semantics_witness :
    (run specSolver rsOne [pA, pB] none (some ⟨["a"], []⟩) none none false).1 = some ⟨[pB]⟩
    ∧ pB.name ≠ "a" := by
  obtain ⟨r, h1, h2⟩ := (c8_ban_lock_semantics rsOne [pA, pB] ⟨["a"], []⟩ "a").1
    (by decide) (by decide)
  have hr : r = ⟨[pB]⟩ := by
    have hcomp : (run specSolver rsOne [pA, pB] none (some ⟨["a"], []⟩) none none
        false).1 = some ⟨[pB]⟩ := by decide
    rw [h1] at hcomp
    exact Option.some.inj hcomp
  subst hr
  exact ⟨h1, h2 pB (by decide)⟩

end Draftfast
